import Mathlib

/-!
Verification of the e-Paper partial-refresh example code
(`examples/partial_probe_v2.py`, `examples/partial_test.py`) and the
hardware abstraction layer (`lib/waveshare_epd/epdconfig.py`).

The Python functions are shallowly embedded: pure helpers become Lean
functions on `Nat`/`Int` and `List Nat` (a byte buffer is a list of byte
values); the loop in `extract_region_bytes` becomes structural recursion
over the row count; the trial-and-error dispatcher `call_partial_window`
becomes recursion over its fixed candidate list, with the target entry
point abstracted as a function from call arguments to an outcome
(success, TypeError, or any other exception); the stateful backend
lifecycle methods of `epdconfig.py` become explicit state-passing
functions that also emit a trace of hardware-level events.
-/

namespace EPaper

/-- Python `align8(x) = x - (x % 8)` from `partial_probe_v2.py` line 20
and `partial_test.py` line 22.  Python `%` on a positive modulus matches
`Int.emod`. -/
def align8 (x : Int) : Int := x - x % 8

/-- Python `up8(x) = x if x % 8 == 0 else x + (8 - (x % 8))` from
`partial_probe_v2.py` line 23 and `partial_test.py` line 25. -/
def up8 (x : Int) : Int := if x % 8 = 0 then x else x + (8 - x % 8)

/-- Loop body of `extract_region_bytes`: starting at row `y`, append the
Python slice `fullbuf[y*bpr + xbyte : y*bpr + xbyte + rbpr]` for `n`
consecutive rows.  A Python slice `l[a : a+k]` with `0 ≤ a` is
`(l.drop a).take k` (both clamp at the end of the list). -/
def extractRows (fullbuf : List Nat) (bpr xbyte rbpr : Nat) : Nat → Nat → List Nat
  | _, 0 => []
  | y, n + 1 =>
    ((fullbuf.drop (y * bpr + xbyte)).take rbpr) ++
      extractRows fullbuf bpr xbyte rbpr (y + 1) n

/-- Python `extract_region_bytes(fullbuf, full_width, x0, y0, x1, y1)`
from `partial_probe_v2.py` lines 26-43 (the same inline loop appears in
`partial_test.py` lines 168-177): `bytes_per_row = full_width // 8`,
`region_bytes_per_row = (x1 - x0) // 8`, `xbyte = x0 // 8`, then for
`y` in `range(y0, y1)` extend the output with the row slice. -/
def extract_region_bytes (fullbuf : List Nat) (full_width x0 y0 x1 y1 : Nat) : List Nat :=
  extractRows fullbuf (full_width / 8) (x0 / 8) ((x1 - x0) / 8) y0 (y1 - y0)

end EPaper

namespace EPaper

/-- C9: the align-down helper satisfies `align8 x ≤ x < align8 x + 8` with
`align8 x` a multiple of 8, `up8 x` is the smallest multiple of 8 that is
greater than or equal to `x`, and `up8 (align8 x) = x` exactly when `x` is
already a multiple of 8. -/
theorem align8_up8_spec (x : Int) :
    align8 x ≤ x ∧ x < align8 x + 8 ∧ align8 x % 8 = 0 ∧
    up8 x % 8 = 0 ∧ x ≤ up8 x ∧ (∀ m : Int, m % 8 = 0 → x ≤ m → up8 x ≤ m) ∧
    (up8 (align8 x) = x ↔ x % 8 = 0) := by
  have ha : (x - x % 8) % 8 = 0 := by omega
  unfold align8 up8
  rw [if_pos ha]
  by_cases h : x % 8 = 0
  · rw [if_pos h]
    refine ⟨by omega, by omega, ha, by omega, by omega, ?_, by omega⟩
    intro m hm hxm
    omega
  · rw [if_neg h]
    refine ⟨by omega, by omega, ha, by omega, by omega, ?_, by omega⟩
    intro m hm hxm
    omega

/-- Length of a Python slice `l[a : a+n]` that lies inside the list. -/
lemma slice_length (l : List Nat) (a n : Nat) (h : a + n ≤ l.length) :
    ((l.drop a).take n).length = n := by
  simp only [List.length_take, List.length_drop]
  omega

/-- Element lookup in a Python slice `l[a : a+n]` at a position below `n`. -/
lemma slice_getElem (l : List Nat) (a n i : Nat) (hi : i < n) :
    ((l.drop a).take n)[i]? = l[a + i]? := by
  rw [List.getElem?_take_of_lt hi, List.getElem?_drop]

/-- Helper bound: every row slice taken by `extractRows` over rows
`y, ..., y + n - 1` stays inside the buffer. -/
lemma row_slice_bound (len bpr xbyte rbpr y n : Nat)
    (hx : xbyte + rbpr ≤ bpr) (hn : 0 < n) (hlen : (y + n) * bpr ≤ len) :
    y * bpr + xbyte + rbpr ≤ len := by
  have h1 : (y + 1) * bpr ≤ (y + n) * bpr := Nat.mul_le_mul_right bpr (by omega)
  have h2 : (y + 1) * bpr = y * bpr + bpr := by ring
  omega

/-- Length of `extractRows` when every row slice is in bounds. -/
lemma extractRows_length (l : List Nat) (bpr xbyte rbpr : Nat)
    (hx : xbyte + rbpr ≤ bpr) :
    ∀ (n y : Nat), (y + n) * bpr ≤ l.length →
      (extractRows l bpr xbyte rbpr y n).length = n * rbpr := by
  intro n
  induction n with
  | zero => intro y _; simp [extractRows]
  | succ n ih =>
    intro y hy
    have hy' : (y + 1 + n) * bpr ≤ l.length := by
      rw [show y + 1 + n = y + (n + 1) by omega]
      exact hy
    rw [extractRows, List.length_append,
      slice_length l _ rbpr (row_slice_bound l.length bpr xbyte rbpr y (n + 1) hx (by omega) hy),
      ih (y + 1) hy']
    ring

/-- Byte-level lookup into `extractRows`: position `j * rbpr + i` of the
output is byte `(y + j) * bpr + xbyte + i` of the source buffer. -/
lemma extractRows_getElem (l : List Nat) (bpr xbyte rbpr : Nat)
    (hx : xbyte + rbpr ≤ bpr) :
    ∀ (n y j i : Nat), j < n → i < rbpr → (y + n) * bpr ≤ l.length →
      (extractRows l bpr xbyte rbpr y n)[j * rbpr + i]? =
        l[(y + j) * bpr + xbyte + i]? := by
  intro n
  induction n with
  | zero => intro y j i hj; omega
  | succ n ih =>
    intro y j i hj hi hlen
    have hrow : y * bpr + xbyte + rbpr ≤ l.length :=
      row_slice_bound l.length bpr xbyte rbpr y (n + 1) hx (by omega) hlen
    have hslice : ((l.drop (y * bpr + xbyte)).take rbpr).length = rbpr :=
      slice_length l _ rbpr hrow
    rw [extractRows, List.getElem?_append]
    cases j with
    | zero =>
      rw [if_pos (by rw [hslice]; omega)]
      rw [show 0 * rbpr + i = i by omega, slice_getElem l _ rbpr i hi]
      congr 1
    | succ j =>
      have hge : ¬ ((j + 1) * rbpr + i < ((l.drop (y * bpr + xbyte)).take rbpr).length) := by
        rw [hslice]
        have : (j + 1) * rbpr = j * rbpr + rbpr := by ring
        omega
      rw [if_neg hge, hslice]
      have hidx : (j + 1) * rbpr + i - rbpr = j * rbpr + i := by
        have : (j + 1) * rbpr = j * rbpr + rbpr := by ring
        omega
      rw [hidx]
      have hlen' : (y + 1 + n) * bpr ≤ l.length := by
        rw [show y + 1 + n = y + (n + 1) by omega]
        exact hlen
      rw [ih (y + 1) j i (by omega) hi hlen']
      congr 2
      ring

/-- C1: for a packed frame of width W (W divisible by 8) and a rect with
8-aligned x-bounds inside the geometry, `extract_region_bytes` returns
exactly the concatenation, row by row from y0 up to but excluding y1, of
the `(x1 - x0)/8` contiguous source bytes starting at byte index
`y * (W/8) + x0/8`; its output length is `((x1 - x0)/8) * (y1 - y0)`
exactly. -/
theorem extract_region_exact (fullbuf : List Nat) (W H x0 y0 x1 y1 : Nat)
    (hW : W % 8 = 0) (hx0 : x0 % 8 = 0) (hx1 : x1 % 8 = 0)
    (hxlt : x0 < x1) (hxW : x1 ≤ W) (hylt : y0 < y1) (hyH : y1 ≤ H)
    (hlen : fullbuf.length = (W / 8) * H) :
    (extract_region_bytes fullbuf W x0 y0 x1 y1).length =
      ((x1 - x0) / 8) * (y1 - y0) ∧
    ∀ j i, j < y1 - y0 → i < (x1 - x0) / 8 →
      (extract_region_bytes fullbuf W x0 y0 x1 y1)[j * ((x1 - x0) / 8) + i]? =
        fullbuf[(y0 + j) * (W / 8) + x0 / 8 + i]? := by
  have hx : x0 / 8 + (x1 - x0) / 8 ≤ W / 8 := by omega
  have hbound : (y0 + (y1 - y0)) * (W / 8) ≤ fullbuf.length := by
    rw [hlen, show y0 + (y1 - y0) = y1 by omega]
    calc y1 * (W / 8) = (W / 8) * y1 := Nat.mul_comm _ _
      _ ≤ (W / 8) * H := Nat.mul_le_mul_left _ hyH
  constructor
  · rw [extract_region_bytes,
      extractRows_length fullbuf (W / 8) (x0 / 8) ((x1 - x0) / 8) hx (y1 - y0) y0 hbound]
    exact Nat.mul_comm _ _
  · intro j i hj hi
    rw [extract_region_bytes,
      extractRows_getElem fullbuf (W / 8) (x0 / 8) ((x1 - x0) / 8) hx (y1 - y0) y0 j i hj hi hbound]

/-- Witness for C1 at W = 16, H = 2, frame `[1,2,3,4]`, rect
(8, 0, 16, 2): the extracted region is the right column of bytes. -/
theorem extract_region_exact_witness :
    (16 % 8 = 0 ∧ 8 % 8 = 0 ∧ 16 % 8 = 0 ∧ 8 < 16 ∧ 16 ≤ 16 ∧ 0 < 2 ∧ 2 ≤ 2 ∧
      ([1, 2, 3, 4] : List Nat).length = (16 / 8) * 2) ∧
    ((extract_region_bytes [1, 2, 3, 4] 16 8 0 16 2).length =
        ((16 - 8) / 8) * (2 - 0) ∧
      ∀ j i, j < 2 - 0 → i < (16 - 8) / 8 →
        (extract_region_bytes [1, 2, 3, 4] 16 8 0 16 2)[j * ((16 - 8) / 8) + i]? =
          ([1, 2, 3, 4] : List Nat)[(0 + j) * (16 / 8) + 8 / 8 + i]?) :=
  ⟨by decide,
    extract_region_exact [1, 2, 3, 4] 16 2 8 0 16 2 (by decide) (by decide)
      (by decide) (by decide) (by decide) (by decide) (by decide) (by decide)⟩

/-- Closed form of `extractRows` in the full-width case: `xbyte = 0` and
`rbpr = bpr` means consecutive whole rows of the buffer. -/
lemma extractRows_full (l : List Nat) (bpr : Nat) :
    ∀ (n y : Nat), extractRows l bpr 0 bpr y n = (l.drop (y * bpr)).take (n * bpr) := by
  intro n
  induction n with
  | zero => intro y; simp [extractRows]
  | succ n ih =>
    intro y
    rw [extractRows, ih (y + 1), show (n + 1) * bpr = bpr + n * bpr by ring,
      List.take_add, Nat.add_zero]
    congr 2
    rw [List.drop_drop]
    congr 1
    ring

/-- C2: extracting the full-frame rect (0, 0, W, H) from a packed frame of
length (W/8) * H returns the frame byte for byte. -/
theorem extract_full_frame_roundtrip (fullbuf : List Nat) (W H : Nat)
    (hW : W % 8 = 0) (hH : 1 ≤ H) (hlen : fullbuf.length = (W / 8) * H) :
    extract_region_bytes fullbuf W 0 0 W H = fullbuf := by
  rw [extract_region_bytes, Nat.zero_div, Nat.sub_zero, Nat.sub_zero,
    extractRows_full fullbuf (W / 8) H 0, Nat.zero_mul, List.drop_zero]
  exact List.take_of_length_le (by rw [hlen, Nat.mul_comm])

/-- Witness for C2 at W = 16, H = 1, frame `[5,6]`. -/
theorem extract_full_frame_roundtrip_witness :
    (16 % 8 = 0 ∧ 1 ≤ 1 ∧ ([5, 6] : List Nat).length = (16 / 8) * 1) ∧
    extract_region_bytes [5, 6] 16 0 0 16 1 = [5, 6] :=
  ⟨by decide, extract_full_frame_roundtrip [5, 6] 16 1 (by decide) (by decide) (by decide)⟩

/-- Counterexample for C3: the rect (1, 0, 9, 1) has both x-bounds
misaligned, yet `extract_region_bytes` raises no error and copies a byte
(the Python code contains no alignment check at all — the claimed
`MisalignedRegion` failure does not exist).  With frame `[1,2,3,4]`,
W = 16: `xbyte = 1 // 8 = 0`, `region_bytes_per_row = 8 // 8 = 1`, so the
call returns `[1]`, a non-empty partial copy instead of a failure. -/
theorem extract_misaligned_copies_cex :
    extract_region_bytes [1, 2, 3, 4] 16 1 0 9 1 = [1] ∧
    extract_region_bytes [1, 2, 3, 4] 16 1 0 9 1 ≠ [] := by
  constructor
  · rfl
  · decide

/-- C3 amended: `extract_region_bytes` performs no alignment validation
and never fails; a rect with misaligned x-bounds is silently treated by
floor division as the aligned rect
`(8 * (x0 / 8), y0, 8 * (x0 / 8) + 8 * ((x1 - x0) / 8), y1)`. -/
theorem extract_misaligned_floor_division (fullbuf : List Nat) (W x0 y0 x1 y1 : Nat) :
    extract_region_bytes fullbuf W x0 y0 x1 y1 =
      extract_region_bytes fullbuf W (8 * (x0 / 8)) y0
        (8 * (x0 / 8) + 8 * ((x1 - x0) / 8)) y1 := by
  unfold extract_region_bytes
  rw [show (8 * (x0 / 8)) / 8 = x0 / 8 by omega,
    show (8 * (x0 / 8) + 8 * ((x1 - x0) / 8) - 8 * (x0 / 8)) / 8 = (x1 - x0) / 8 by omega]

/-- Counterexample for C4: with frame `[1,2]` (W = 16, H = 1), the rect
(0, 0, 16, 2) has y1 = 2 > H = 1, yet `extract_region_bytes` raises no
`OutOfBounds` error (the Python code contains no bounds check): it
returns `[1,2]`, the row that exists plus an empty slice for the
missing row. -/
theorem extract_out_of_bounds_no_error_cex :
    extract_region_bytes [1, 2] 16 0 0 16 2 = [1, 2] := by rfl

/-- Membership in `extractRows` output comes from the source buffer. -/
lemma extractRows_mem (l : List Nat) (bpr xbyte rbpr : Nat) :
    ∀ (n y : Nat) (b : Nat), b ∈ extractRows l bpr xbyte rbpr y n → b ∈ l := by
  intro n
  induction n with
  | zero => intro y b hb; simp [extractRows] at hb
  | succ n ih =>
    intro y b hb
    rw [extractRows] at hb
    rcases List.mem_append.mp hb with h | h
    · exact List.mem_of_mem_drop (List.mem_of_mem_take h)
    · exact ih (y + 1) b h

/-- The output of `extractRows` is never longer than `n * rbpr`. -/
lemma extractRows_length_le (l : List Nat) (bpr xbyte rbpr : Nat) :
    ∀ (n y : Nat), (extractRows l bpr xbyte rbpr y n).length ≤ n * rbpr := by
  intro n
  induction n with
  | zero => intro y; simp [extractRows]
  | succ n ih =>
    intro y
    rw [extractRows, List.length_append]
    have h1 : ((l.drop (y * bpr + xbyte)).take rbpr).length ≤ rbpr := by
      simp [List.length_take]
    have h2 := ih (y + 1)
    have h3 : (n + 1) * rbpr = rbpr + n * rbpr := by ring
    omega

/-- C4 amended: `extract_region_bytes` performs no bounds validation and
never fails, but the Python slices clamp at the end of the flat buffer,
so every output byte is a byte of the source frame and the output never
exceeds the nominal region size. -/
theorem extract_never_reads_outside (fullbuf : List Nat) (W x0 y0 x1 y1 : Nat) :
    (∀ b ∈ extract_region_bytes fullbuf W x0 y0 x1 y1, b ∈ fullbuf) ∧
    (extract_region_bytes fullbuf W x0 y0 x1 y1).length ≤
      ((x1 - x0) / 8) * (y1 - y0) := by
  constructor
  · intro b hb
    exact extractRows_mem fullbuf (W / 8) (x0 / 8) ((x1 - x0) / 8) (y1 - y0) y0 b hb
  · rw [Nat.mul_comm]
    exact extractRows_length_le fullbuf (W / 8) (x0 / 8) ((x1 - x0) / 8) (y1 - y0) y0

/-- Counterexample for C10: with frame `[1,...,8]` (W = 16, H = 4) and
rect (0, 0, 24, 2), x1 = 24 exceeds W = 16, so every row segment runs
past its row's byte extent — yet the output is NOT shorter than the
nominal size: the middle rows silently borrow bytes of the following
rows inside the flat buffer, and the length equals
`((24 - 0)/8) * (2 - 0) = 6` exactly. -/
theorem extract_x_overflow_not_shorter_cex :
    (extract_region_bytes [1, 2, 3, 4, 5, 6, 7, 8] 16 0 0 24 2).length =
      ((24 - 0) / 8) * (2 - 0) ∧
    ¬ (extract_region_bytes [1, 2, 3, 4, 5, 6, 7, 8] 16 0 0 24 2).length <
      ((24 - 0) / 8) * (2 - 0) ∧
    extract_region_bytes [1, 2, 3, 4, 5, 6, 7, 8] 16 0 0 24 2 =
      [1, 2, 3, 3, 4, 5] := by
  refine ⟨rfl, by decide, rfl⟩

/-- Splitting `extractRows` over a sum of row counts. -/
lemma extractRows_split (l : List Nat) (bpr xbyte rbpr : Nat) :
    ∀ (m n y : Nat), extractRows l bpr xbyte rbpr y (m + n) =
      extractRows l bpr xbyte rbpr y m ++ extractRows l bpr xbyte rbpr (y + m) n := by
  intro m
  induction m with
  | zero =>
    intro n y
    rw [show 0 + n = n by omega, extractRows]
    simp
  | succ m ih =>
    intro n y
    rw [show m + 1 + n = (m + n) + 1 by omega, extractRows, extractRows,
      ih n (y + 1), List.append_assoc]
    congr 3
    omega

/-- Rows that start at or past the end of the buffer contribute nothing. -/
lemma extractRows_past_end (l : List Nat) (bpr xbyte rbpr : Nat) :
    ∀ (n y : Nat), l.length ≤ y * bpr →
      extractRows l bpr xbyte rbpr y n = [] := by
  intro n
  induction n with
  | zero => intro y _; rfl
  | succ n ih =>
    intro y hy
    rw [extractRows, List.drop_eq_nil_of_le (by omega), List.take_nil,
      List.nil_append]
    apply ih (y + 1)
    have : y * bpr ≤ (y + 1) * bpr := Nat.mul_le_mul_right bpr (by omega)
    omega

/-- C10 amended: when the rect overflows the frame vertically (y1 > H)
with in-range 8-aligned x-bounds, `extract_region_bytes` raises no error
and returns exactly the rows that exist, so the output is strictly
shorter than the nominal region size: `((x1 - x0)/8) * (H - y0)` bytes.
(When instead only x1 > W, the rows borrow bytes of subsequent rows
inside the flat buffer and the output need not be shorter, as the
counterexample shows.) -/
theorem extract_y_overflow_truncates (fullbuf : List Nat) (W H x0 y0 x1 y1 : Nat)
    (hW : W % 8 = 0) (hx0 : x0 % 8 = 0) (hx1 : x1 % 8 = 0)
    (hxlt : x0 < x1) (hxW : x1 ≤ W) (hy0 : y0 < H) (hyH : H < y1)
    (hlen : fullbuf.length = (W / 8) * H) :
    (extract_region_bytes fullbuf W x0 y0 x1 y1).length =
      ((x1 - x0) / 8) * (H - y0) ∧
    (extract_region_bytes fullbuf W x0 y0 x1 y1).length <
      ((x1 - x0) / 8) * (y1 - y0) := by
  have hx : x0 / 8 + (x1 - x0) / 8 ≤ W / 8 := by omega
  have hsplit : y1 - y0 = (H - y0) + (y1 - H) := by omega
  have hpast : extractRows fullbuf (W / 8) (x0 / 8) ((x1 - x0) / 8) (y0 + (H - y0)) (y1 - H) = [] := by
    apply extractRows_past_end
    rw [hlen, show y0 + (H - y0) = H by omega, Nat.mul_comm]
  have hbound : (y0 + (H - y0)) * (W / 8) ≤ fullbuf.length := by
    rw [hlen, show y0 + (H - y0) = H by omega, Nat.mul_comm]
  have hmain : (extract_region_bytes fullbuf W x0 y0 x1 y1).length =
      ((x1 - x0) / 8) * (H - y0) := by
    rw [extract_region_bytes, hsplit, extractRows_split, hpast, List.append_nil,
      extractRows_length fullbuf (W / 8) (x0 / 8) ((x1 - x0) / 8) hx (H - y0) y0 hbound,
      Nat.mul_comm]
  refine ⟨hmain, ?_⟩
  rw [hmain]
  exact mul_lt_mul_of_pos_left (show H - y0 < y1 - y0 by omega)
    (show 0 < (x1 - x0) / 8 by omega)

/-- Witness for the amended C10 at W = 16, H = 1, frame `[1,2]`, rect
(0, 0, 8, 2): one real row survives, the row past the frame is empty. -/
theorem extract_y_overflow_truncates_witness :
    (16 % 8 = 0 ∧ 0 % 8 = 0 ∧ 8 % 8 = 0 ∧ 0 < 8 ∧ 8 ≤ 16 ∧ 0 < 1 ∧ 1 < 2 ∧
      ([1, 2] : List Nat).length = (16 / 8) * 1) ∧
    ((extract_region_bytes [1, 2] 16 0 0 8 2).length = ((8 - 0) / 8) * (1 - 0) ∧
      (extract_region_bytes [1, 2] 16 0 0 8 2).length < ((8 - 0) / 8) * (2 - 0)) :=
  ⟨by decide,
    extract_y_overflow_truncates [1, 2] 16 1 0 0 8 2 (by decide) (by decide)
      (by decide) (by decide) (by decide) (by decide) (by decide) (by decide)⟩

/-- Payload representation passed to the partial entry point: Python
`region_bytes` as given, or the re-wrapped `[*region_bytes]` list of the
third candidate in `call_partial_window`. -/
inductive Payload
  | bytes (data : List Nat)
  | list (data : List Nat)
  deriving DecidableEq

/-- Argument tuple of one candidate call shape: the payload plus the four
positional integers handed to the driver entry point. -/
structure CallArgs where
  payload : Payload
  a1 : Nat
  a2 : Nat
  a3 : Nat
  a4 : Nat
  deriving DecidableEq

/-- Outcome of invoking the vendor entry point on one argument tuple:
normal return, a `TypeError` (signature/arity mismatch), or any other
exception, carrying an error code. -/
inductive Outcome
  | success
  | typeError
  | otherError (e : Nat)
  deriving DecidableEq

/-- Python `tries` list built in `call_partial_window`
(`partial_probe_v2.py` lines 63-67): end-exclusive coordinates first,
then width/height, then the same coordinates with the payload re-wrapped
as a list. -/
def tries (region : List Nat) (x0 y0 x1 y1 : Nat) : List CallArgs :=
  [ ⟨Payload.bytes region, x0, y0, x1, y1⟩,
    ⟨Payload.bytes region, x0, y0, x1 - x0, y1 - y0⟩,
    ⟨Payload.list region, x0, y0, x1, y1⟩ ]

/-- Loop of `call_partial_window` (`partial_probe_v2.py` lines 68-74):
`fn(*args)` per candidate; `return True` on success, `continue` on
`TypeError`, any other exception propagates (modelled as `Except.error`);
`return False` when candidates are exhausted. -/
def runShapes (fn : CallArgs → Outcome) : List CallArgs → Except Nat Bool
  | [] => Except.ok false
  | a :: rest =>
    match fn a with
    | Outcome.success => Except.ok true
    | Outcome.typeError => runShapes fn rest
    | Outcome.otherError e => Except.error e

/-- Observer for the same loop: the list of argument tuples on which the
entry point is actually invoked (each element is one real call, whether
it succeeded, mismatched, or raised). -/
def probeTrace (fn : CallArgs → Outcome) : List CallArgs → List CallArgs
  | [] => []
  | a :: rest =>
    match fn a with
    | Outcome.typeError => a :: probeTrace fn rest
    | _ => [a]

/-- Python `call_partial_window(epd, method_name, region_bytes, x0, y0, x1, y1)`
from `partial_probe_v2.py` lines 56-74, with the bound method
`getattr(epd, method_name)` abstracted as `fn`. -/
def call_partial_window (fn : CallArgs → Outcome) (region : List Nat)
    (x0 y0 x1 y1 : Nat) : Except Nat Bool :=
  runShapes fn (tries region x0 y0 x1 y1)

/-- Entry-point invocations performed by one `call_partial_window` call. -/
def callTrace (fn : CallArgs → Outcome) (region : List Nat)
    (x0 y0 x1 y1 : Nat) : List CallArgs :=
  probeTrace fn (tries region x0 y0 x1 y1)

/-- Fake entry point for the C5 scenario: accepts only shape 2 (the
width/height call form `(region, 8, 0, 16 - 8, 2 - 0)`), raising a
signature mismatch on everything else. -/
def fakeShape2 : CallArgs → Outcome := fun a =>
  if a = ⟨Payload.bytes [0], 8, 0, 8, 2⟩ then Outcome.success else Outcome.typeError

/-- Counterexample for C5: the Python dispatcher holds no state — there is
no `BOUND(shape)` memoization anywhere in `call_partial_window` or its
module — so a second call to the same entry point evaluates exactly the
same trial loop as the first.  For the fake entry point accepting only
shape 2, the second call again performs two invocations (one mismatch
plus one success), not the single bound-shape invocation the claim
requires. -/
theorem dispatcher_reprobes_cex :
    (callTrace fakeShape2 [0] 8 0 16 2).length = 2 ∧
    (callTrace fakeShape2 [0] 8 0 16 2).length ≠ 1 ∧
    call_partial_window fakeShape2 [0] 8 0 16 2 = Except.ok true := by
  refine ⟨rfl, by decide, rfl⟩

/-- C5 amended: the dispatcher is stateless and re-probes on every call.
For any entry point that rejects shape 1 with a signature mismatch and
accepts shape 2, every call — first and subsequent alike — performs
exactly one mismatched invocation followed by one successful one and
returns success. -/
theorem dispatcher_stateless_reprobe (fn : CallArgs → Outcome)
    (region : List Nat) (x0 y0 x1 y1 : Nat)
    (h1 : fn ⟨Payload.bytes region, x0, y0, x1, y1⟩ = Outcome.typeError)
    (h2 : fn ⟨Payload.bytes region, x0, y0, x1 - x0, y1 - y0⟩ = Outcome.success) :
    callTrace fn region x0 y0 x1 y1 =
      [⟨Payload.bytes region, x0, y0, x1, y1⟩,
       ⟨Payload.bytes region, x0, y0, x1 - x0, y1 - y0⟩] ∧
    call_partial_window fn region x0 y0 x1 y1 = Except.ok true := by
  constructor
  · rw [callTrace, tries, probeTrace, h1, probeTrace, h2]
  · rw [call_partial_window, tries, runShapes, h1, runShapes, h2]

/-- Witness for the amended C5 with the fake shape-2-only entry point. -/
theorem dispatcher_stateless_reprobe_witness :
    (fakeShape2 ⟨Payload.bytes [0], 8, 0, 16, 2⟩ = Outcome.typeError ∧
      fakeShape2 ⟨Payload.bytes [0], 8, 0, 16 - 8, 2 - 0⟩ = Outcome.success) ∧
    (callTrace fakeShape2 [0] 8 0 16 2 =
        [⟨Payload.bytes [0], 8, 0, 16, 2⟩, ⟨Payload.bytes [0], 8, 0, 16 - 8, 2 - 0⟩] ∧
      call_partial_window fakeShape2 [0] 8 0 16 2 = Except.ok true) :=
  ⟨⟨by decide, by decide⟩,
    dispatcher_stateless_reprobe fakeShape2 [0] 8 0 16 2 (by decide) (by decide)⟩

/-- C6: the dispatcher attempts candidate shapes in the fixed priority
order — end-exclusive coordinates, then width/height, then the same
coordinates with the payload as a different sequence representation.
The invocations it performs are an initial segment of that list, every
invocation before the last returned a signature mismatch (`TypeError`),
and if any attempted invocation raised any other exception it propagates
out of the dispatcher as that very error rather than being swallowed. -/
theorem dispatcher_order_and_propagation (fn : CallArgs → Outcome)
    (region : List Nat) (x0 y0 x1 y1 : Nat) :
    tries region x0 y0 x1 y1 =
      [ ⟨Payload.bytes region, x0, y0, x1, y1⟩,
        ⟨Payload.bytes region, x0, y0, x1 - x0, y1 - y0⟩,
        ⟨Payload.list region, x0, y0, x1, y1⟩ ] ∧
    callTrace fn region x0 y0 x1 y1 =
      (tries region x0 y0 x1 y1).take (callTrace fn region x0 y0 x1 y1).length ∧
    (∀ a ∈ (callTrace fn region x0 y0 x1 y1).dropLast, fn a = Outcome.typeError) ∧
    (∀ e, (∃ a ∈ callTrace fn region x0 y0 x1 y1, fn a = Outcome.otherError e) →
      call_partial_window fn region x0 y0 x1 y1 = Except.error e) := by
  refine ⟨rfl, ?_⟩
  cases h1 : fn ⟨Payload.bytes region, x0, y0, x1, y1⟩ <;>
    [skip; cases h2 : fn ⟨Payload.bytes region, x0, y0, x1 - x0, y1 - y0⟩ <;>
      [skip; cases h3 : fn ⟨Payload.list region, x0, y0, x1, y1⟩; skip]; skip] <;>
    simp_all [callTrace, probeTrace, tries, call_partial_window, runShapes]

/-- Hardware-level events emitted by the backend lifecycle methods of
`epdconfig.py`: GPIO direction/pull configuration, SPI open at a clock
rate (spidev) or software-SPI begin, SPI close/end, GPIO channel
cleanup, and writes to the RST, DC and PWR control lines. -/
inductive Ev
  | gpioConfig
  | spiOpen (hz : Nat)
  | spiBegin
  | spiClose
  | spiEnd
  | gpioCleanup
  | rst (v : Nat)
  | dc (v : Nat)
  | pwr (v : Nat)
  deriving DecidableEq

/-- Levels of the three output control lines. -/
structure Lines where
  rst : Nat
  dc : Nat
  pwr : Nat
  deriving DecidableEq

/-- Effect of one event on the control-line levels. -/
def applyEv (l : Lines) : Ev → Lines
  | Ev.rst v => { l with rst := v }
  | Ev.dc v => { l with dc := v }
  | Ev.pwr v => { l with pwr := v }
  | _ => l

/-- Final control-line levels after an event trace. -/
def runTrace (l : Lines) (t : List Ev) : Lines := t.foldl applyEv l

namespace RaspberryPi

/-- Instance flags `_gpio_inited` and `_spi_inited` of the `RaspberryPi`
class in `epdconfig.py`. -/
structure State where
  gpio_inited : Bool
  spi_inited : Bool
  deriving DecidableEq

/-- Python `RaspberryPi._gpio_setup_basic` (`epdconfig.py` lines
159-171): configures all pin directions/pulls once, guarded by
`_gpio_inited`. -/
def gpio_setup_basic (s : State) : State × List Ev :=
  if s.gpio_inited then (s, [])
  else ({ s with gpio_inited := true }, [Ev.gpioConfig])

/-- Python `RaspberryPi._spi_open` (`epdconfig.py` lines 174-184): opens
the spidev bus at the fixed `SPI_CLOCK_HZ = 4000000` once, guarded by
`_spi_inited`. -/
def spi_open (s : State) : State × List Ev :=
  if s.spi_inited then (s, [])
  else ({ s with spi_inited := true }, [Ev.spiOpen 4000000])

/-- Python `RaspberryPi.module_init` (`epdconfig.py` lines 100-131) on
the default `cleanup=False` path: `_gpio_setup_basic()`, then
`_spi_open()`, then `GPIO.output(PWR_PIN, 1)`. -/
def module_init (s : State) : State × List Ev :=
  let r1 := gpio_setup_basic s
  let r2 := spi_open r1.1
  (r2.1, r1.2 ++ r2.2 ++ [Ev.pwr 1])

/-- Python `RaspberryPi.module_exit` (`epdconfig.py` lines 133-156) on
the default `cleanup=False` path: `SPI.close()` (only when
`_spi_inited`) inside its own `try/except: pass`, then the RST/DC/PWR
low writes inside a second independent `try/except: pass`, then both
flags cleared.  `spiCloseFails` models the close call raising; the bare
`except` swallows it, so the line writes still run and nothing
escapes. -/
def module_exit (s : State) (spiCloseFails : Bool) : State × List Ev :=
  let t1 := if s.spi_inited && !spiCloseFails then [Ev.spiClose] else []
  (⟨false, false⟩, t1 ++ [Ev.rst 0, Ev.dc 0, Ev.pwr 0])

end RaspberryPi

namespace JetsonNano

/-- Python `JetsonNano.module_init` (`epdconfig.py` lines 233-243): it
keeps no initialization flag, so every call unconditionally re-runs the
GPIO setup, raises power, and re-begins the software SPI. -/
def module_init : List Ev :=
  [Ev.gpioConfig, Ev.pwr 1, Ev.spiBegin]

/-- Python `JetsonNano.module_exit` (`epdconfig.py` lines 245-252):
`SYSFS_software_spi_end()` runs first with no exception handling, then
the RST/DC/PWR low writes and the GPIO cleanup.  Returns the events
emitted and whether an exception escaped: when the SPI end raises, the
line writes never run and the exception propagates. -/
def module_exit (spiEndFails : Bool) : List Ev × Bool :=
  if spiEndFails then ([], true)
  else ([Ev.spiEnd, Ev.rst 0, Ev.dc 0, Ev.pwr 0, Ev.gpioCleanup], false)

end JetsonNano

namespace SunriseX3

/-- Python `SunriseX3.module_init` (`epdconfig.py` lines 285-301):
guarded by the `Flag` attribute — the first call sets `Flag = 1`, runs
GPIO setup, raises power and opens spidev at 4000000 Hz; later calls
return 0 immediately. -/
def module_init (flag : Nat) : Nat × List Ev :=
  if flag = 0 then (1, [Ev.gpioConfig, Ev.pwr 1, Ev.spiOpen 4000000])
  else (flag, [])

/-- Python `SunriseX3.module_exit` (`epdconfig.py` lines 303-311):
`SPI.close()` runs first with no exception handling, then `Flag = 0`,
the line-low writes and the GPIO cleanup. -/
def module_exit (flag : Nat) (spiCloseFails : Bool) : Nat × List Ev × Bool :=
  if spiCloseFails then (flag, [], true)
  else (0, [Ev.spiClose, Ev.rst 0, Ev.dc 0, Ev.pwr 0, Ev.gpioCleanup], false)

end SunriseX3

/-- Counterexample for C7: the JetsonNano backend violates the claim.
Its `module_init` keeps no state, so a second call on an
already-initialized backend performs the identical event sequence as the
first: it re-runs the GPIO direction configuration and re-begins the SPI
bus, instead of being a no-op on the open resources. -/
theorem jetson_module_init_reruns_cex :
    Ev.gpioConfig ∈ JetsonNano.module_init ∧
    Ev.spiBegin ∈ JetsonNano.module_init ∧
    JetsonNano.module_init = [Ev.gpioConfig, Ev.pwr 1, Ev.spiBegin] := by
  refine ⟨by decide, by decide, rfl⟩

/-- C7 amended: the RaspberryPi and SunriseX3 backends are idempotent — a
second `module_init` re-runs no GPIO configuration and re-opens no SPI
bus (RaspberryPi only re-raises the already-high power line, SunriseX3
does nothing at all) — and on the first call both raise power only after
GPIO configuration, with the SPI bus opened at the fixed 4000000 Hz
clock before `module_init` returns (hence before any `spi_write`); the
JetsonNano backend instead re-runs GPIO setup and re-begins SPI on every
call. -/
theorem module_init_idempotence_amended :
    (∀ s : RaspberryPi.State, (RaspberryPi.module_init s).1 = ⟨true, true⟩) ∧
    RaspberryPi.module_init ⟨false, false⟩ =
      (⟨true, true⟩, [Ev.gpioConfig, Ev.spiOpen 4000000, Ev.pwr 1]) ∧
    RaspberryPi.module_init ⟨true, true⟩ = (⟨true, true⟩, [Ev.pwr 1]) ∧
    SunriseX3.module_init 0 = (1, [Ev.gpioConfig, Ev.pwr 1, Ev.spiOpen 4000000]) ∧
    SunriseX3.module_init 1 = (1, []) ∧
    JetsonNano.module_init = [Ev.gpioConfig, Ev.pwr 1, Ev.spiBegin] := by
  refine ⟨?_, rfl, rfl, rfl, rfl, rfl⟩
  intro s
  cases s with
  | mk g sp => cases g <;> cases sp <;> rfl

/-- Counterexample for C8: the JetsonNano backend violates the claim.
Its `module_exit` calls the software-SPI end with no exception handling
before any line write, so when the SPI teardown raises, the RESET, DC
and POWER lines are never driven low and the exception escapes. -/
theorem jetson_module_exit_unguarded_cex :
    (JetsonNano.module_exit true).1 = [] ∧
    (JetsonNano.module_exit true).2 = true := by
  exact ⟨rfl, rfl⟩

/-- C8 amended: the RaspberryPi backend satisfies the claim — its
`module_exit` wraps the SPI close and the GPIO line writes in separate
`try/except: pass` blocks, so whatever the SPI close does (and on a
repeated call, where the SPI flag is already cleared), the RST, DC and
PWR lines end low and no exception escapes; the JetsonNano and SunriseX3
backends run their SPI teardown unguarded first, so an SPI-close failure
propagates before any control line is driven low. -/
theorem module_exit_isolation_amended :
    (∀ (l : Lines) (s : RaspberryPi.State) (f1 f2 : Bool),
      runTrace l (RaspberryPi.module_exit s f1).2 = ⟨0, 0, 0⟩ ∧
      runTrace (runTrace l (RaspberryPi.module_exit s f1).2)
        (RaspberryPi.module_exit (RaspberryPi.module_exit s f1).1 f2).2 = ⟨0, 0, 0⟩) ∧
    ((JetsonNano.module_exit true).1 = [] ∧ (JetsonNano.module_exit true).2 = true) ∧
    (∀ l : Lines, runTrace l (JetsonNano.module_exit false).1 = ⟨0, 0, 0⟩) ∧
    ((SunriseX3.module_exit 1 true).2.1 = [] ∧ (SunriseX3.module_exit 1 true).2.2 = true) ∧
    (∀ (l : Lines) (flag : Nat), runTrace l (SunriseX3.module_exit flag false).2.1 = ⟨0, 0, 0⟩) := by
  refine ⟨?_, ⟨rfl, rfl⟩, fun l => rfl, ⟨rfl, rfl⟩, fun l flag => rfl⟩
  intro l s f1 f2
  cases s with
  | mk g sp => cases g <;> cases sp <;> cases f1 <;> cases f2 <;> exact ⟨rfl, rfl⟩

end EPaper
